/-
Verification of the trip-planner backend (functions/index.js) against its
natural-language specification.

The JavaScript source is shallowly embedded: every external effect (the
image-search response, the relevance-classifier verdicts, the GitHub
contents API, the text-generation endpoint) is passed in explicitly as
data or as an oracle function, and each handler's pure data transformation
is translated into a Lean function that mirrors the JS control flow.
-/
import Mathlib

set_option autoImplicit false

namespace TripPlanner

/-! ## Error codes (Firebase `HttpsError` codes used by the source) -/

inductive ErrCode where
  | notFound
  | conflict
  | internal
  | invalidArgument
  | permissionDenied
  deriving DecidableEq, Repr

/-! ## Image search: items and candidates

`_fetchImageForSpotLogic` (index.js lines 516-551, v1 at 975-1032) receives
the Google Custom Search response `result.items` and builds up to three
candidate images.  The relevance classifier `isImageAppropriate` is an
external AI call; it is modelled as a verdict oracle `String → Bool`
applied to the item's link.  `reportedImageUrl` may be `null`, modelled as
`Option String` (the JS comparison `item.link === reportedImageUrl` is
false whenever the reported URL is `null`). -/

structure SearchItem where
  link : String
  contextLink : String
  displayLink : String
  deriving DecidableEq, Repr

structure Candidate where
  url : String
  sourceLink : String
  displayLink : String
  deriving DecidableEq, Repr

def mkCandidate (item : SearchItem) : Candidate :=
  { url := item.link, sourceLink := item.contextLink, displayLink := item.displayLink }

/-- First loop of `_fetchImageForSpotLogic`: walk the search items in order,
skip the reported URL, push every item the relevance classifier accepts,
and break as soon as the candidate list has 3 entries.  (The JS loop has no
duplicate check in this phase.) -/
def filterPhase (verdict : String → Bool) (reported : Option String) :
    List SearchItem → List Candidate → List Candidate
  | [], acc => acc
  | item :: rest, acc =>
    if 3 ≤ acc.length then acc
    else if some item.link == reported then filterPhase verdict reported rest acc
    else if verdict item.link then
      filterPhase verdict reported rest (acc ++ [mkCandidate item])
    else filterPhase verdict reported rest acc

/-- Second loop (backfill) of `_fetchImageForSpotLogic`: walk the items
again, push any item whose link is neither the reported URL nor already
present among the candidate URLs, and break at 3 entries. -/
def backfillPhase (reported : Option String) :
    List SearchItem → List Candidate → List Candidate
  | [], acc => acc
  | item :: rest, acc =>
    if 3 ≤ acc.length then acc
    else if some item.link != reported && !(acc.any (fun c => c.url == item.link)) then
      backfillPhase reported rest (acc ++ [mkCandidate item])
    else backfillPhase reported rest acc

/-- The candidate list returned by `_fetchImageForSpotLogic` for a given
search response, verdict oracle and reported-bad URL: the relevance phase
followed, when fewer than 3 candidates were accepted, by the backfill
phase over the same items. -/
def fetchImageCandidates (items : List SearchItem) (verdict : String → Bool)
    (reported : Option String) : List Candidate :=
  let phase1 := filterPhase verdict reported items []
  if phase1.length < 3 then backfillPhase reported items phase1 else phase1

/-- Spec-side formulation of the backfill (from the specification's words):
take the unfiltered search results in original order, excluding the
reported-bad URL and URLs already present, appending until the list needs
no more entries or the results are exhausted.  `present` is the list of
URLs already in the candidate list and `need` how many entries are still
missing to reach 3. -/
def backfillSpec (reported : Option String) (present : List String) (need : Nat) :
    List SearchItem → List Candidate
  | [] => []
  | item :: rest =>
    if need = 0 then []
    else if some item.link == reported || present.contains item.link then
      backfillSpec reported present need rest
    else mkCandidate item :: backfillSpec reported (present ++ [item.link]) (need - 1) rest

/-! ### Lemmas about the candidate-selection loops -/

theorem filterPhase_length_le (verdict : String → Bool) (reported : Option String)
    (items : List SearchItem) :
    ∀ acc : List Candidate, acc.length ≤ 3 →
      (filterPhase verdict reported items acc).length ≤ 3 := by
  induction items with
  | nil => intro acc h; simpa [filterPhase] using h
  | cons item rest ih =>
    intro acc h
    simp only [filterPhase]
    split
    · exact h
    next h3 =>
      split
      · exact ih acc h
      · split
        · exact ih _ (by simp only [List.length_append, List.length_cons, List.length_nil]; omega)
        · exact ih acc h

theorem backfillPhase_length_le (reported : Option String) (items : List SearchItem) :
    ∀ acc : List Candidate, acc.length ≤ 3 →
      (backfillPhase reported items acc).length ≤ 3 := by
  induction items with
  | nil => intro acc h; simpa [backfillPhase] using h
  | cons item rest ih =>
    intro acc h
    simp only [backfillPhase]
    split
    · exact h
    next h3 =>
      split
      · exact ih _ (by simp only [List.length_append, List.length_cons, List.length_nil]; omega)
      · exact ih acc h

theorem contains_map_url (acc : List Candidate) (x : String) :
    (acc.map (fun c => c.url)).contains x = acc.any (fun c => c.url == x) := by
  induction acc with
  | nil => rfl
  | cons c rest ih =>
    simp only [List.map_cons, List.contains_cons, List.any_cons, ih]
    congr 1
    rcases eq_or_ne x c.url with h | h
    · subst h; rfl
    · rw [beq_eq_false_iff_ne.mpr h, beq_eq_false_iff_ne.mpr (Ne.symm h)]

theorem backfillPhase_eq_spec (reported : Option String) (items : List SearchItem) :
    ∀ acc : List Candidate, acc.length ≤ 3 →
      backfillPhase reported items acc
        = acc ++ backfillSpec reported (acc.map (fun c => c.url)) (3 - acc.length) items := by
  induction items with
  | nil => intro acc _; simp [backfillPhase, backfillSpec]
  | cons item rest ih =>
    intro acc h
    by_cases h3 : 3 ≤ acc.length
    · have hlen : acc.length = 3 := le_antisymm h h3
      simp [backfillPhase, backfillSpec, h3, hlen]
    · have hne : ¬ (3 - acc.length = 0) := by omega
      have hcond : (some item.link != reported && !(acc.any (fun c => c.url == item.link)))
          = !(some item.link == reported || (acc.map (fun c => c.url)).contains item.link) := by
        simp only [Bool.not_or, contains_map_url, bne]
      by_cases hskip : (some item.link == reported
          || (acc.map (fun c => c.url)).contains item.link) = true
      · have hcf : (some item.link != reported && !(acc.any (fun c => c.url == item.link)))
            = false := by rw [hcond, hskip]; rfl
        simp only [backfillPhase, backfillSpec, if_neg h3, if_neg hne, hcf, hskip,
          Bool.false_eq_true, if_false, if_true]
        exact ih acc h
      · have hskipf : (some item.link == reported
            || (acc.map (fun c => c.url)).contains item.link) = false :=
          Bool.eq_false_iff.mpr hskip
        have hct : (some item.link != reported && !(acc.any (fun c => c.url == item.link)))
            = true := by rw [hcond, hskipf]; rfl
        have hIH := ih (acc ++ [mkCandidate item])
          (by simp only [List.length_append, List.length_cons, List.length_nil]; omega)
        simp only [backfillPhase, backfillSpec, if_neg h3, if_neg hne, hct, hskipf,
          Bool.false_eq_true, if_false, if_true]
        rw [hIH]
        have hmapurl : (acc ++ [mkCandidate item]).map (fun c => c.url)
            = acc.map (fun c => c.url) ++ [item.link] := by simp [mkCandidate]
        have hlen2 : (acc ++ [mkCandidate item]).length = acc.length + 1 := by simp
        have hneed : 3 - (acc.length + 1) = 3 - acc.length - 1 := by omega
        rw [hmapurl, hlen2, hneed]
        simp [List.append_assoc]

theorem backfillPhase_nodup_urls (reported : Option String) (items : List SearchItem) :
    ∀ acc : List Candidate, ((acc.map (fun c => c.url)).Nodup) →
      ((backfillPhase reported items acc).map (fun c => c.url)).Nodup := by
  induction items with
  | nil => intro acc h; simpa [backfillPhase] using h
  | cons item rest ih =>
    intro acc h
    simp only [backfillPhase]
    split
    · exact h
    · split
      next hc =>
        apply ih
        have hany : (acc.any (fun c => c.url == item.link)) = false := by
          rcases Bool.and_eq_true_iff.mp hc with ⟨-, h2⟩
          simpa using h2
        have hnotmem : item.link ∉ acc.map (fun c => c.url) := by
          intro hm
          rcases List.mem_map.mp hm with ⟨c, hcmem, hurl⟩
          have : (acc.any (fun c => c.url == item.link)) = true :=
            List.any_eq_true.mpr ⟨c, hcmem, by simp [hurl]⟩
          simp [this] at hany
        simp only [mkCandidate, List.map_append, List.map_cons, List.map_nil]
        exact List.Nodup.append h (List.nodup_singleton _)
          (by simpa [List.disjoint_singleton] using hnotmem)
      · exact ih acc h

/-! ### Example search items used in concrete instantiations -/

def itemA : SearchItem :=
  { link := "https://a.example/1.jpg", contextLink := "https://a.example/page1",
    displayLink := "a.example" }

def itemB : SearchItem :=
  { link := "https://b.example/2.jpg", contextLink := "https://b.example/page2",
    displayLink := "b.example" }

/-! ### Claim C1 -/

/-- C1: for every image-search response and every assignment of relevance-filter
verdicts, the candidate list returned by `_fetchImageForSpotLogic` never has more
than 3 entries, and when fewer than 3 candidates were accepted by the relevance
filter it equals the accepted list backfilled with unfiltered search results —
excluding the reported-bad URL and URLs already present — in original
search-response order, until the list reaches 3 entries or the results are
exhausted (`backfillSpec` is the spec-side formulation of that backfill). -/
theorem C1_fetchImageCandidates_backfill (items : List SearchItem)
    (verdict : String → Bool) (reported : Option String) :
    (fetchImageCandidates items verdict reported).length ≤ 3 ∧
    ((filterPhase verdict reported items []).length < 3 →
      fetchImageCandidates items verdict reported
        = filterPhase verdict reported items []
          ++ backfillSpec reported
              ((filterPhase verdict reported items []).map (fun c => c.url))
              (3 - (filterPhase verdict reported items []).length) items) := by
  have h1 : (filterPhase verdict reported items []).length ≤ 3 :=
    filterPhase_length_le verdict reported items [] (by simp)
  constructor
  · show (if (filterPhase verdict reported items []).length < 3 then
        backfillPhase reported items (filterPhase verdict reported items [])
      else filterPhase verdict reported items []).length ≤ 3
    split
    · exact backfillPhase_length_le reported items _ h1
    · exact h1
  · intro hlt
    show (if (filterPhase verdict reported items []).length < 3 then
        backfillPhase reported items (filterPhase verdict reported items [])
      else filterPhase verdict reported items []) = _
    rw [if_pos hlt]
    exact backfillPhase_eq_spec reported items _ h1

/-- Concrete instantiation of `C1_fetchImageCandidates_backfill` on a
two-item search response where the filter accepts nothing. -/
theorem C1_witness :
    (fetchImageCandidates [itemA, itemB] (fun _ => false) none).length ≤ 3 ∧
    ((filterPhase (fun _ => false) none [itemA, itemB] []).length < 3 →
      fetchImageCandidates [itemA, itemB] (fun _ => false) none
        = filterPhase (fun _ => false) none [itemA, itemB] []
          ++ backfillSpec none
              ((filterPhase (fun _ => false) none [itemA, itemB] []).map (fun c => c.url))
              (3 - (filterPhase (fun _ => false) none [itemA, itemB] []).length)
              [itemA, itemB]) :=
  C1_fetchImageCandidates_backfill [itemA, itemB] (fun _ => false) none

/-! ### Claim C2

The relevance phase of `_fetchImageForSpotLogic` has no duplicate check
(only the backfill phase does), so a search response repeating the same URL
with the classifier accepting it yields duplicate candidates.  The claim as
stated is therefore false; it holds whenever the relevance-accepted
candidates themselves are duplicate-free (in particular whenever the filter
accepts nothing). -/

/-- C2 counterexample: a search response repeating the same URL twice, every
verdict positive — the returned candidate list contains the URL twice. -/
theorem C2_counterexample :
    ¬ (((fetchImageCandidates [itemA, itemA] (fun _ => true) none).map
        (fun c => c.url)).Nodup) := by decide

/-- C2 (amended): whenever the relevance-accepted candidate URLs are
duplicate-free — e.g. when the filter accepts nothing — the candidate list
returned by `_fetchImageForSpotLogic` contains no duplicate URLs; the
backfill phase never introduces a duplicate. -/
theorem C2_fetchImageCandidates_nodup (items : List SearchItem)
    (verdict : String → Bool) (reported : Option String)
    (h : ((filterPhase verdict reported items []).map (fun c => c.url)).Nodup) :
    ((fetchImageCandidates items verdict reported).map (fun c => c.url)).Nodup := by
  show ((if (filterPhase verdict reported items []).length < 3 then
      backfillPhase reported items (filterPhase verdict reported items [])
    else filterPhase verdict reported items []).map (fun c => c.url)).Nodup
  split
  · exact backfillPhase_nodup_urls reported items _ h
  · exact h

/-- Concrete instantiation of `C2_fetchImageCandidates_nodup`: duplicate
search items, filter rejecting everything — the backfilled list is
duplicate-free. -/
theorem C2_witness :
    ((filterPhase (fun _ => false) none [itemA, itemA] []).map (fun c => c.url)).Nodup ∧
    ((fetchImageCandidates [itemA, itemA] (fun _ => false) none).map
        (fun c => c.url)).Nodup :=
  ⟨by decide, C2_fetchImageCandidates_nodup [itemA, itemA] (fun _ => false) none (by decide)⟩

/-! ## Remote document store client (GitHub contents API)

`updateGitHubFile` (index.js lines 71-96, v1 at 791-816) PUTs the new
content together with the previously read sha and, on ANY non-ok response,
throws `HttpsError("internal", ...)`.  The external store itself is
modelled from section 6 of the specification: the PUT succeeds iff the
transport works and the supplied revision token matches the store's
current one (the store signals a conflict on a stale token by a non-2xx
response). -/

structure PutRequest where
  path : String
  content : String
  sha : String
  message : String
  deriving DecidableEq, Repr

/-- Whether the store reports the PUT as successful: transport must work and
the supplied sha must equal the store's current sha for the file. -/
def githubPutOk (storeSha : String) (transportOk : Bool) (req : PutRequest) : Bool :=
  transportOk && (req.sha == storeSha)

/-- The write client: `response.ok` yields success, anything else throws the
`internal` error code — the only code this function ever produces. -/
def updateGitHubFile (storeSha : String) (transportOk : Bool) (req : PutRequest) :
    Except ErrCode Unit :=
  if githubPutOk storeSha transportOk req then Except.ok ()
  else Except.error ErrCode.internal

/-! ### Claim C3

The claim requires a distinct `Conflict` failure for a stale revision
token, distinguished from the `Internal` transport failure.  The code maps
every non-ok response — stale sha included — to the single `internal`
code, so the two kinds are NOT distinguished; the true part is that a
stale write always fails (it is never absorbed as success). -/

def stalePut : PutRequest :=
  { path := "data/tokyo.json", content := "\x7b\x7d", sha := "sha-stale",
    message := "update spots" }

/-- C3 counterexample: a write whose revision token does not match the
store's current state fails with the `internal` code — the same code a
transport failure produces — not with a distinct `conflict` code. -/
theorem C3_counterexample :
    updateGitHubFile "sha-current" true stalePut = Except.error ErrCode.internal ∧
    updateGitHubFile "sha-current" false stalePut = Except.error ErrCode.internal ∧
    ErrCode.internal ≠ ErrCode.conflict := ⟨rfl, rfl, by decide⟩

/-- C3 (amended): a stale write is never silently absorbed as success — a
write whose supplied token differs from the store's current sha always
fails — but it fails with the same `internal` error that a transport
failure produces; the client does not distinguish the two failure kinds. -/
theorem C3_updateGitHubFile_stale (storeSha : String) (transportOk : Bool)
    (req : PutRequest) (h : req.sha ≠ storeSha) :
    updateGitHubFile storeSha transportOk req = Except.error ErrCode.internal ∧
    updateGitHubFile storeSha false req = Except.error ErrCode.internal := by
  have hok : githubPutOk storeSha transportOk req = false := by
    unfold githubPutOk
    rw [beq_eq_false_iff_ne.mpr h]
    simp
  constructor
  · simp [updateGitHubFile, hok]
  · simp [updateGitHubFile, githubPutOk]

/-- Concrete instantiation of `C3_updateGitHubFile_stale`. -/
theorem C3_witness :
    stalePut.sha ≠ "sha-current" ∧
    (updateGitHubFile "sha-current" true stalePut = Except.error ErrCode.internal ∧
     updateGitHubFile "sha-current" false stalePut = Except.error ErrCode.internal) :=
  ⟨by decide, C3_updateGitHubFile_stale "sha-current" true stalePut (by decide)⟩

/-! ## Data model: spots, area positions, region documents -/

structure Spot where
  prefecture : String
  name : String
  area : String
  category : String
  subCategory : String
  description : String
  website : String
  gmaps : String
  stayTime : String
  tags : List String
  image : Option String
  imageSource : String
  imageSourceUrl : String
  deriving DecidableEq, Repr

structure AreaPosition where
  name : String
  top : String
  left : String
  deriving DecidableEq, Repr

/-- Pairwise travel-time table: rows keyed by origin sub-area, each row
keyed by destination sub-area (JS objects, modelled as insertion-ordered
association lists). -/
abbrev TransitRow := List (String × String)

abbrev TransitTable := List (String × TransitRow)

structure RegionDoc where
  name : String
  spots : List Spot
  areaPositions : List AreaPosition
  transitData : Option TransitTable
  deriving DecidableEq, Repr

/-- JS object assignment `obj[k] = v` on an association list: overwrite in
place when the key exists, append otherwise. -/
def setAssoc {α : Type} : List (String × α) → String → α → List (String × α)
  | [], k, v => [(k, v)]
  | (k0, v0) :: rest, k, v =>
    if k0 == k then (k0, v) :: rest else (k0, v0) :: setAssoc rest k v

/-- JS `String.prototype.trim`: strip leading and trailing whitespace
(structural recursion over the character list, so that concrete instances
evaluate). -/
def jsTrim (s : String) : String :=
  String.mk (((s.data.dropWhile Char.isWhitespace).reverse.dropWhile
    Char.isWhitespace).reverse)

/-- JS `String.prototype.toLowerCase` (ASCII case folding). -/
def jsToLower (s : String) : String :=
  String.mk (s.data.map Char.toLower)

/-! ## Image Update Heuristic (`shouldUpdateImage`, index.js 493-514)

The text-generation endpoint is modelled by `classifier : Option String`:
`none` stands for a non-ok response, a thrown fetch error or a malformed
body (all caught by the source and mapped to `false`), `some text` for the
candidate text returned.  The result pairs the decision with the number of
classification calls issued. -/

def shouldUpdateImage (spot : Spot) (classifier : Option String) : Bool × Nat :=
  match spot.image with
  | none => (true, 0)
  | some img =>
    if img = "" then (true, 0)
    else if jsTrim img = "" then (true, 0)
    else
      match classifier with
      | none => (false, 1)
      | some text => (jsToLower (jsTrim text) == "yes", 1)

/-- Template spot used by concrete instantiations. -/
def blankSpot : Spot :=
  { prefecture := "", name := "", area := "", category := "", subCategory := "",
    description := "", website := "", gmaps := "", stayTime := "", tags := [],
    image := none, imageSource := "", imageSourceUrl := "" }

/-! ### Claim C6 -/

/-- C6: for every spot whose image field is the empty string or missing, the
Image Update Heuristic returns `true` without issuing any classification
call to the text-generation endpoint, whatever that endpoint would have
answered. -/
theorem C6_shouldUpdateImage_empty (spot : Spot) (classifier : Option String)
    (h : spot.image = none ∨ spot.image = some "") :
    shouldUpdateImage spot classifier = (true, 0) := by
  rcases h with h | h <;> simp [shouldUpdateImage, h]

/-- Concrete instantiation of `C6_shouldUpdateImage_empty`. -/
theorem C6_witness :
    (blankSpot.image = none ∨ blankSpot.image = some "") ∧
    shouldUpdateImage blankSpot none = (true, 0) :=
  ⟨Or.inl rfl, C6_shouldUpdateImage_empty blankSpot none (Or.inl rfl)⟩

/-! ## Spot approval (`approveSubmissionV2`, index.js 585-636; v1 at 1068-1152)

The handler resolves the prefecture, fetches the region document, fetches a
first image candidate, pushes the new spot, optionally registers the new
sub-area and its travel times, and writes the document back.  The document
transformation is embedded below; the fetched first candidate is a
parameter (`none` when the image search produced no candidates, in which
case a placeholder URL is used). -/

def hexDigitChar (n : Nat) : Char :=
  if n < 10 then Char.ofNat (48 + n) else Char.ofNat (55 + n)

def uriUnreservedMarks : List Char := ['-', '_', '.', '!', '~', '*', Char.ofNat 39, '(', ')']

/-- JS `encodeURIComponent`: unreserved characters kept, all others
percent-encoded byte by byte in UTF-8. -/
def encodeURIComponentChar (c : Char) : String :=
  if c.isAlphanum || uriUnreservedMarks.contains c then String.singleton c
  else String.join (((String.singleton c).toUTF8.toList).map
    (fun b => String.mk ['%', hexDigitChar (b.toNat / 16), hexDigitChar (b.toNat % 16)]))

def encodeURIComponent (s : String) : String :=
  String.join (s.data.map encodeURIComponentChar)

structure NewAreaPosition where
  top : String
  left : String
  deriving DecidableEq, Repr

/-- The submission payload fields `approveSubmissionV2` reads
(`submissionData`). -/
structure Submission where
  prefecture : String
  name : String
  area : String
  category : String
  subCategory : String
  description : String
  website : String
  gmaps : String
  stayTime : String
  tags : List String
  isNewArea : Bool
  newAreaPosition : Option NewAreaPosition
  newTransitData : Option TransitRow
  deriving DecidableEq, Repr

/-- The `newSpotData` record built by `approveSubmissionV2` from the
submission and the first image candidate. -/
def newSpotFromSubmission (sub : Submission) (firstCandidate : Option Candidate) : Spot :=
  { prefecture := sub.prefecture, name := sub.name, area := sub.area,
    category := sub.category, subCategory := sub.subCategory,
    description := sub.description, website := sub.website, gmaps := sub.gmaps,
    stayTime := sub.stayTime, tags := sub.tags,
    image := some (match firstCandidate with
      | some c => c.url
      | none => "https://placehold.co/600x400/E57373/FFF?text=" ++ encodeURIComponent sub.name),
    imageSource := (match firstCandidate with
      | some c => c.displayLink
      | none => "ユーザー提案"),
    imageSourceUrl := (match firstCandidate with
      | some c => c.sourceLink
      | none => sub.website) }

/-- Symmetric travel-time insertion for a newly approved sub-area
(index.js 611-618): the new area's row is set to the supplied forward
times, then for every `(existingArea, time)` entry the reverse direction
`transitData[existingArea][newArea] = time` is written, creating the
existing area's row if absent. -/
def insertTransitSymmetric (table : TransitTable) (newName : String)
    (td : TransitRow) : TransitTable :=
  let t1 := setAssoc table newName td
  td.foldl (fun t p =>
    let row := (t.lookup p.1).getD []
    setAssoc t p.1 (setAssoc row newName p.2)) t1

/-- Document transformation of `approveSubmissionV2`: push the new spot;
when the submission proposes a new area AND the caller approved it, also
push the new `AreaPosition` and insert its travel times symmetrically.
Reading `newAreaPosition.top` when the position is absent is the JS
`TypeError` on `null`, caught by the handler and rethrown as `internal`. -/
def approveSubmissionDoc (doc : RegionDoc) (sub : Submission) (approveNewArea : Bool)
    (firstCandidate : Option Candidate) : Except ErrCode RegionDoc :=
  if sub.isNewArea && approveNewArea then
    match sub.newAreaPosition with
    | none => Except.error ErrCode.internal
    | some pos =>
      match sub.newTransitData with
      | none =>
        Except.ok { doc with
          spots := doc.spots ++ [newSpotFromSubmission sub firstCandidate],
          areaPositions := doc.areaPositions ++ [⟨sub.area, pos.top, pos.left⟩] }
      | some td =>
        Except.ok { doc with
          spots := doc.spots ++ [newSpotFromSubmission sub firstCandidate],
          areaPositions := doc.areaPositions ++ [⟨sub.area, pos.top, pos.left⟩],
          transitData := some (insertTransitSymmetric (doc.transitData.getD []) sub.area td) }
  else
    Except.ok { doc with spots := doc.spots ++ [newSpotFromSubmission sub firstCandidate] }

/-- The region-document invariant of the data model: every spot's sub-area
appears in the document's `areaPositions` list. -/
def areaInvariantB (doc : RegionDoc) : Bool :=
  doc.spots.all (fun s => doc.areaPositions.any (fun a => a.name == s.area))

/-! ### Concrete documents and submissions for C5 and C7 -/

def shibuyaArea : AreaPosition := { name := "Shibuya", top := "10%", left := "20%" }

def tokyoDoc : RegionDoc :=
  { name := "東京都", spots := [], areaPositions := [shibuyaArea], transitData := some [] }

def shinjukuSub : Submission :=
  { prefecture := "東京都", name := "Shinjuku Cafe", area := "Shinjuku",
    category := "グルメ", subCategory := "カフェ", description := "desc",
    website := "https://cafe.example", gmaps := "https://maps.example",
    stayTime := "約60分", tags := ["カフェ"],
    isNewArea := true, newAreaPosition := some { top := "30%", left := "40%" },
    newTransitData := some [("Shibuya", "20min")] }

def shibuyaSub : Submission :=
  { shinjukuSub with
    area := "Shibuya",
    isNewArea := false,
    newAreaPosition := none,
    newTransitData := none }

/-! ### Claim C5

The claim asserts the invariant for EVERY combination of `isNewArea` and
`approveNewArea`.  In the combination `isNewArea = true`,
`approveNewArea = false` the spot is pushed with its new sub-area while
`areaPositions` is left untouched, so the produced document violates the
invariant.  The invariant does hold whenever the submission's sub-area
already appears in the document or the new area is actually approved. -/

/-- C5 counterexample: approving the Shinjuku submission while declining the
new area (`approveNewArea = false`) succeeds and produces a document whose
new spot has sub-area "Shinjuku" absent from `areaPositions`. -/
theorem C5_counterexample :
    areaInvariantB tokyoDoc = true ∧
    (approveSubmissionDoc tokyoDoc shinjukuSub false none).map areaInvariantB
      = Except.ok false := ⟨rfl, rfl⟩

/-- C5 (amended): the spot-approval operation preserves the sub-area
invariant provided the submission's sub-area already appears in the
document's `areaPositions`, or the submission proposes a new area and the
caller approves it (in which case the new sub-area is added alongside the
spot).  In the remaining combination — `isNewArea` true with
`approveNewArea` false — the spot is added without its sub-area and the
invariant can be violated. -/
theorem C5_approveSubmission_area_invariant (doc : RegionDoc) (sub : Submission)
    (approveNewArea : Bool) (cand : Option Candidate) (doc' : RegionDoc)
    (hinv : areaInvariantB doc = true)
    (harea : doc.areaPositions.any (fun a => a.name == sub.area) = true
      ∨ (sub.isNewArea = true ∧ approveNewArea = true))
    (hres : approveSubmissionDoc doc sub approveNewArea cand = Except.ok doc') :
    areaInvariantB doc' = true := by
  unfold approveSubmissionDoc at hres
  unfold areaInvariantB at hinv ⊢
  by_cases hflag : (sub.isNewArea && approveNewArea) = true
  · rw [if_pos hflag] at hres
    cases hpos : sub.newAreaPosition with
    | none => rw [hpos] at hres; cases hres
    | some pos =>
      rw [hpos] at hres
      have harea' : ∀ s ∈ doc.spots ++ [newSpotFromSubmission sub cand],
          ((doc.areaPositions ++ [(⟨sub.area, pos.top, pos.left⟩ : AreaPosition)]).any
            (fun a => a.name == s.area)) = true := by
        intro s hs
        rcases List.mem_append.mp hs with hs | hs
        · have := List.all_eq_true.mp hinv s hs
          rcases List.any_eq_true.mp this with ⟨a, ha, hname⟩
          exact List.any_eq_true.mpr ⟨a, List.mem_append_left _ ha, hname⟩
        · have hs' : s = newSpotFromSubmission sub cand := by simpa using hs
          subst hs'
          refine List.any_eq_true.mpr ⟨⟨sub.area, pos.top, pos.left⟩,
            List.mem_append_right _ (by simp), ?_⟩
          simp [newSpotFromSubmission]
      cases htd : sub.newTransitData with
      | none =>
        rw [htd] at hres
        cases hres
        exact List.all_eq_true.mpr harea'
      | some td =>
        rw [htd] at hres
        cases hres
        exact List.all_eq_true.mpr harea'
  · rw [if_neg hflag] at hres
    cases hres
    have harea1 : doc.areaPositions.any (fun a => a.name == sub.area) = true := by
      rcases harea with h | ⟨h1, h2⟩
      · exact h
      · exact absurd (by rw [h1, h2]; rfl) hflag
    refine List.all_eq_true.mpr ?_
    intro s hs
    rcases List.mem_append.mp hs with hs | hs
    · exact List.all_eq_true.mp hinv s hs
    · have hs' : s = newSpotFromSubmission sub cand := by simpa using hs
      subst hs'
      simpa [newSpotFromSubmission] using harea1

/-- Concrete instantiation of `C5_approveSubmission_area_invariant`: a
submission whose sub-area "Shibuya" already exists. -/
theorem C5_witness :
    (areaInvariantB tokyoDoc = true ∧
     tokyoDoc.areaPositions.any (fun a => a.name == shibuyaSub.area) = true ∧
     approveSubmissionDoc tokyoDoc shibuyaSub false none
       = Except.ok { tokyoDoc with
           spots := tokyoDoc.spots ++ [newSpotFromSubmission shibuyaSub none] }) ∧
    areaInvariantB { tokyoDoc with
      spots := tokyoDoc.spots ++ [newSpotFromSubmission shibuyaSub none] } = true :=
  ⟨⟨rfl, rfl, rfl⟩,
    C5_approveSubmission_area_invariant tokyoDoc shibuyaSub false none _ rfl
      (Or.inl rfl) rfl⟩

/-! ### Claim C7 -/

/-- C7: approving the Shinjuku submission (new area approved) on a document
with sub-areas ["Shibuya"] yields a document whose sub-area list contains
both "Shibuya" and "Shinjuku" and whose travel-time table contains both the
forward entry Shinjuku → Shibuya = "20min" and the symmetric entry
Shibuya → Shinjuku = "20min", even though only the forward direction was
supplied. -/
theorem C7_approveSubmission_symmetric_transit :
    (approveSubmissionDoc tokyoDoc shinjukuSub true none).map (fun d =>
      (d.areaPositions.any (fun a => a.name == "Shibuya"),
       d.areaPositions.any (fun a => a.name == "Shinjuku"),
       ((d.transitData.getD []).lookup "Shinjuku").bind (fun row => row.lookup "Shibuya"),
       ((d.transitData.getD []).lookup "Shibuya").bind (fun row => row.lookup "Shinjuku")))
    = Except.ok (true, true, some "20min", some "20min") := rfl

/-! ## Confirm image updates (`confirmImageUpdatesV2`, index.js 720-753;
v1 at 1301-1349)

The handler validates that `updates` is a non-empty array, groups the
triples by target file via the prefecture-id map (triples whose prefecture
has no entry are dropped by the grouping), then for each file fetches the
document once, applies all of that file's updates in memory, writes once,
and counts the successful writes; any per-file error is caught and the
loop continues.  The GitHub store is modelled by
`store : String → Except Unit RegionDoc` (fetch outcome per path) and the
write outcome by `writeOk : String → Bool`; `events` records the sequence
of store calls performed and `committed` the documents actually written,
while the caller-visible payload is `success` plus the commit count. -/

structure UpdateTriple where
  spotName : String
  prefecture : String
  area : String
  oldImageUrl : String
  newImageUrl : String
  newImageSource : String
  newImageSourceUrl : String
  deriving DecidableEq, Repr

/-- `fileUpdates.forEach`-step: find the FIRST spot whose name matches and
overwrite its image fields; a triple matching no spot leaves the list
unchanged.  The empty string models a missing/falsy `newImageSource` /
`newImageSourceUrl` (JS `||` fallback). -/
def applyUpdateToSpots (spots : List Spot) (u : UpdateTriple) : List Spot :=
  match spots with
  | [] => []
  | s :: rest =>
    if s.name == u.spotName then
      { s with
        image := some u.newImageUrl,
        imageSource := if u.newImageSource = "" then "管理者一括更新" else u.newImageSource,
        imageSourceUrl :=
          if u.newImageSourceUrl = "" then u.newImageUrl else u.newImageSourceUrl } :: rest
    else s :: applyUpdateToSpots rest u

def applyUpdateToDoc (doc : RegionDoc) (u : UpdateTriple) : RegionDoc :=
  { doc with spots := applyUpdateToSpots doc.spots u }

def applyUpdatesToDoc (doc : RegionDoc) (us : List UpdateTriple) : RegionDoc :=
  us.foldl applyUpdateToDoc doc

abbrev PrefMap := List (String × String)

/-- Append an update to its file's bucket, creating the bucket at the end
when absent (JS object key-insertion order). -/
def pushToGroup (acc : List (String × List UpdateTriple)) (key : String)
    (u : UpdateTriple) : List (String × List UpdateTriple) :=
  match acc with
  | [] => [(key, [u])]
  | (k, us) :: rest =>
    if k == key then (k, us ++ [u]) :: rest else (k, us) :: pushToGroup rest key u

/-- The `updates.reduce` grouping: triples whose prefecture is not in the
map are dropped. -/
def groupUpdatesByFile (prefMap : PrefMap) (updates : List UpdateTriple) :
    List (String × List UpdateTriple) :=
  updates.foldl (fun acc u =>
    match prefMap.lookup u.prefecture with
    | some prefId => pushToGroup acc ("data/" ++ prefId ++ ".json") u
    | none => acc) []

inductive StoreEvent where
  | fetch (path : String)
  | write (path : String) (doc : RegionDoc)
  deriving DecidableEq, Repr

/-- The per-file loop: fetch, apply, write, count; a fetch error skips the
file (no write attempted), a write failure is caught after the attempt.
Returns (commit count, store events in order, documents committed). -/
def confirmLoop (store : String → Except Unit RegionDoc) (writeOk : String → Bool) :
    List (String × List UpdateTriple) → Nat × List StoreEvent × List (String × RegionDoc)
  | [] => (0, [], [])
  | (path, us) :: rest =>
    match store path with
    | Except.error _ =>
      let r := confirmLoop store writeOk rest
      (r.1, StoreEvent.fetch path :: r.2.1, r.2.2)
    | Except.ok doc =>
      let newDoc := applyUpdatesToDoc doc us
      let r := confirmLoop store writeOk rest
      if writeOk path then
        (r.1 + 1, StoreEvent.fetch path :: StoreEvent.write path newDoc :: r.2.1,
          (path, newDoc) :: r.2.2)
      else
        (r.1, StoreEvent.fetch path :: StoreEvent.write path newDoc :: r.2.1, r.2.2)

structure ConfirmResult where
  success : Bool
  commitCount : Nat
  events : List StoreEvent
  committed : List (String × RegionDoc)
  deriving Repr

def confirmImageUpdates (prefMap : PrefMap) (store : String → Except Unit RegionDoc)
    (writeOk : String → Bool) (updates : List UpdateTriple) :
    Except ErrCode ConfirmResult :=
  if updates.isEmpty then Except.error ErrCode.invalidArgument
  else
    let r := confirmLoop store writeOk (groupUpdatesByFile prefMap updates)
    Except.ok { success := true, commitCount := r.1, events := r.2.1, committed := r.2.2 }

/-! ### Lemmas about the grouping and the per-file loop -/

theorem beq_str_comm (x y : String) : (x == y) = (y == x) := by
  rcases eq_or_ne x y with h | h
  · subst h; rfl
  · rw [beq_eq_false_iff_ne.mpr h, beq_eq_false_iff_ne.mpr (Ne.symm h)]

theorem pushToGroup_keys (key : String) (u : UpdateTriple) :
    ∀ acc : List (String × List UpdateTriple),
      (pushToGroup acc key u).map Prod.fst
        = if (acc.map Prod.fst).contains key then acc.map Prod.fst
          else acc.map Prod.fst ++ [key] := by
  intro acc
  induction acc with
  | nil => simp [pushToGroup]
  | cons p rest ih =>
    obtain ⟨k, us⟩ := p
    by_cases hk : (k == key) = true
    · simp [pushToGroup, hk, List.contains_cons, beq_str_comm key k]
    · have hk' : (k == key) = false := Bool.eq_false_iff.mpr hk
      simp only [pushToGroup, hk', Bool.false_eq_true, if_false, List.map_cons,
        List.contains_cons, beq_str_comm key k, Bool.false_or, ih]
      split <;> simp

theorem group_foldl_keys_nodup (prefMap : PrefMap) :
    ∀ (updates : List UpdateTriple) (acc : List (String × List UpdateTriple)),
      (acc.map Prod.fst).Nodup →
      ((updates.foldl (fun acc u =>
          match prefMap.lookup u.prefecture with
          | some prefId => pushToGroup acc ("data/" ++ prefId ++ ".json") u
          | none => acc) acc).map Prod.fst).Nodup := by
  intro updates
  induction updates with
  | nil => intro acc h; simpa using h
  | cons u rest ih =>
    intro acc h
    simp only [List.foldl_cons]
    cases hl : prefMap.lookup u.prefecture with
    | none => exact ih acc h
    | some prefId =>
      apply ih
      rw [pushToGroup_keys]
      split
      · exact h
      next hc =>
        refine List.Nodup.append h (List.nodup_singleton _) ?_
        have : ("data/" ++ prefId ++ ".json") ∉ acc.map Prod.fst := by simpa using hc
        simpa [List.disjoint_singleton] using this

theorem groupUpdatesByFile_keys_nodup (prefMap : PrefMap) (updates : List UpdateTriple) :
    ((groupUpdatesByFile prefMap updates).map Prod.fst).Nodup :=
  group_foldl_keys_nodup prefMap updates [] (by simp)

/-- What each file contributes to the store-event trace. -/
def fileEvents (store : String → Except Unit RegionDoc)
    (g : String × List UpdateTriple) : List StoreEvent :=
  match store g.1 with
  | Except.error _ => [StoreEvent.fetch g.1]
  | Except.ok d =>
    [StoreEvent.fetch g.1, StoreEvent.write g.1 (applyUpdatesToDoc d g.2)]

/-- Whether (and with which content) a file's updates are committed:
exactly when its fetch succeeded and its write succeeded. -/
def fileCommit (store : String → Except Unit RegionDoc) (writeOk : String → Bool)
    (g : String × List UpdateTriple) : Option (String × RegionDoc) :=
  match store g.1 with
  | Except.error _ => none
  | Except.ok d =>
    if writeOk g.1 then some (g.1, applyUpdatesToDoc d g.2) else none

theorem confirmLoop_spec (store : String → Except Unit RegionDoc)
    (writeOk : String → Bool) :
    ∀ groups : List (String × List UpdateTriple),
      (confirmLoop store writeOk groups).2.2
          = groups.filterMap (fileCommit store writeOk) ∧
      (confirmLoop store writeOk groups).1
          = (groups.filterMap (fileCommit store writeOk)).length ∧
      (confirmLoop store writeOk groups).2.1
          = groups.flatMap (fileEvents store) := by
  intro groups
  induction groups with
  | nil => simp [confirmLoop]
  | cons g rest ih =>
    obtain ⟨path, us⟩ := g
    obtain ⟨ih1, ih2, ih3⟩ := ih
    cases hs : store path with
    | error e =>
      simp [confirmLoop, hs, fileCommit, fileEvents, ih1, ih2, ih3]
    | ok doc =>
      by_cases hw : writeOk path = true
      · simp [confirmLoop, hs, hw, fileCommit, fileEvents, ih1, ih2, ih3]
      · have hw' : writeOk path = false := Bool.eq_false_iff.mpr hw
        simp [confirmLoop, hs, hw', fileCommit, fileEvents, ih1, ih2, ih3]

/-! ### Claim C4 -/

/-- C4: `confirmImageUpdates`, given a non-empty approved list of update
triples, groups them by target region document (the group keys are
pairwise distinct), fetches each target document exactly once and writes
it back at most once — exactly once when the fetch succeeded — as recorded
by the event trace; the committed documents are exactly the groups whose
fetch and write both succeeded, each with all of its own updates applied
(so one document's write failure drops only that document's updates and
leaves every other document's commit unaffected), and the returned count
equals the number of documents whose write succeeded. -/
theorem C4_confirmImageUpdates_per_file (prefMap : PrefMap)
    (store : String → Except Unit RegionDoc) (writeOk : String → Bool)
    (updates : List UpdateTriple) (h : updates ≠ []) :
    ((groupUpdatesByFile prefMap updates).map Prod.fst).Nodup ∧
    confirmImageUpdates prefMap store writeOk updates = Except.ok {
      success := true,
      commitCount := ((groupUpdatesByFile prefMap updates).filterMap
        (fileCommit store writeOk)).length,
      events := (groupUpdatesByFile prefMap updates).flatMap (fileEvents store),
      committed := (groupUpdatesByFile prefMap updates).filterMap
        (fileCommit store writeOk) } := by
  refine ⟨groupUpdatesByFile_keys_nodup prefMap updates, ?_⟩
  obtain ⟨h1, h2, h3⟩ := confirmLoop_spec store writeOk (groupUpdatesByFile prefMap updates)
  have hne : updates.isEmpty = false := by
    cases updates with
    | nil => exact absurd rfl h
    | cons a as => rfl
  simp [confirmImageUpdates, hne, h1, h2, h3]

/-! ### Concrete data for the C4 and C9 instantiations -/

def tokyoSpot : Spot :=
  { blankSpot with
    name := "Tokyo Tower",
    area := "Shibuya",
    prefecture := "東京都",
    image := some "https://old.example/t.jpg" }

def osakaSpot : Spot :=
  { blankSpot with
    name := "Osaka Castle",
    area := "Namba",
    prefecture := "大阪府",
    image := some "https://old.example/o.jpg" }

def tokyoDocC4 : RegionDoc :=
  { name := "東京都", spots := [tokyoSpot], areaPositions := [shibuyaArea],
    transitData := none }

def osakaDocC4 : RegionDoc :=
  { name := "大阪府", spots := [osakaSpot], areaPositions := [], transitData := none }

def prefMapEx : PrefMap := [("東京都", "tokyo"), ("大阪府", "osaka")]

def storeEx : String → Except Unit RegionDoc := fun path =>
  if path = "data/tokyo.json" then Except.ok tokyoDocC4
  else if path = "data/osaka.json" then Except.ok osakaDocC4
  else Except.error ()

def writeOkEx : String → Bool := fun path => path == "data/tokyo.json"

def updateTokyo : UpdateTriple :=
  { spotName := "Tokyo Tower", prefecture := "東京都", area := "Shibuya",
    oldImageUrl := "https://old.example/t.jpg",
    newImageUrl := "https://new.example/t.jpg",
    newImageSource := "new.example",
    newImageSourceUrl := "https://new.example/page" }

def updateOsaka : UpdateTriple :=
  { updateTokyo with
    spotName := "Osaka Castle",
    prefecture := "大阪府",
    area := "Namba",
    oldImageUrl := "https://old.example/o.jpg",
    newImageUrl := "https://new.example/o.jpg" }

/-- Concrete instantiation of `C4_confirmImageUpdates_per_file`: two target
documents, the second document's write artificially failing. -/
theorem C4_witness :
    ((groupUpdatesByFile prefMapEx [updateTokyo, updateOsaka]).map Prod.fst).Nodup ∧
    confirmImageUpdates prefMapEx storeEx writeOkEx [updateTokyo, updateOsaka]
      = Except.ok {
        success := true,
        commitCount := ((groupUpdatesByFile prefMapEx [updateTokyo, updateOsaka]).filterMap
          (fileCommit storeEx writeOkEx)).length,
        events := (groupUpdatesByFile prefMapEx [updateTokyo, updateOsaka]).flatMap
          (fileEvents storeEx),
        committed := (groupUpdatesByFile prefMapEx [updateTokyo, updateOsaka]).filterMap
          (fileCommit storeEx writeOkEx) } :=
  C4_confirmImageUpdates_per_file prefMapEx storeEx writeOkEx [updateTokyo, updateOsaka]
    (List.cons_ne_nil _ _)

/-! ### Claim C9 -/

theorem applyUpdateToSpots_id (u : UpdateTriple) :
    ∀ spots : List Spot, (∀ s ∈ spots, s.name ≠ u.spotName) →
      applyUpdateToSpots spots u = spots := by
  intro spots
  induction spots with
  | nil => intro _; rfl
  | cons s rest ih =>
    intro hall
    have hs : s.name ≠ u.spotName := hall s (by simp)
    simp only [applyUpdateToSpots, beq_eq_false_iff_ne.mpr hs, Bool.false_eq_true, if_false]
    rw [ih (fun x hx => hall x (by simp [hx]))]

theorem group_foldl_drops_unmapped (prefMap : PrefMap) :
    ∀ (updates : List UpdateTriple) (acc : List (String × List UpdateTriple)),
      updates.foldl (fun acc u =>
          match prefMap.lookup u.prefecture with
          | some prefId => pushToGroup acc ("data/" ++ prefId ++ ".json") u
          | none => acc) acc
        = (updates.filter (fun u => (prefMap.lookup u.prefecture).isSome)).foldl
            (fun acc u =>
              match prefMap.lookup u.prefecture with
              | some prefId => pushToGroup acc ("data/" ++ prefId ++ ".json") u
              | none => acc) acc := by
  intro updates
  induction updates with
  | nil => intro acc; rfl
  | cons u rest ih =>
    intro acc
    cases hl : prefMap.lookup u.prefecture with
    | none => simp [hl, ih]
    | some prefId => simp [hl, ih]

/-- C9: in `confirmImageUpdates` a triple whose prefecture has no entry in
the prefecture-id map is dropped by the grouping (so it causes no store
call and no error), a triple whose `spotName` matches no spot in the
fetched document leaves that document unchanged, and — for any non-empty
update list — the handler returns `success: true` whatever the store and
write outcomes are, including when every write fails. -/
theorem C9_confirmImageUpdates_silent (prefMap : PrefMap)
    (store : String → Except Unit RegionDoc) (writeOk : String → Bool)
    (updates : List UpdateTriple) (h : updates ≠ []) :
    (confirmImageUpdates prefMap store writeOk updates).map (fun r => r.success)
        = Except.ok true ∧
    groupUpdatesByFile prefMap updates
        = groupUpdatesByFile prefMap
            (updates.filter (fun u => (prefMap.lookup u.prefecture).isSome)) ∧
    (∀ (doc : RegionDoc) (u : UpdateTriple),
        (∀ s ∈ doc.spots, s.name ≠ u.spotName) → applyUpdateToDoc doc u = doc) := by
  refine ⟨?_, ?_, ?_⟩
  · have hne : updates.isEmpty = false := by
      cases updates with
      | nil => exact absurd rfl h
      | cons a as => rfl
    simp [confirmImageUpdates, hne, Except.map]
  · exact group_foldl_drops_unmapped prefMap updates []
  · intro doc u hall
    show { doc with spots := applyUpdateToSpots doc.spots u } = doc
    rw [applyUpdateToSpots_id u doc.spots hall]

/-- Concrete instantiation of `C9_confirmImageUpdates_silent`: an update
list containing a triple with an unmapped prefecture, every write
failing. -/
theorem C9_witness :
    (confirmImageUpdates prefMapEx storeEx (fun _ => false)
        [updateTokyo, { updateTokyo with prefecture := "北海道" }]).map (fun r => r.success)
        = Except.ok true ∧
    groupUpdatesByFile prefMapEx [updateTokyo, { updateTokyo with prefecture := "北海道" }]
        = groupUpdatesByFile prefMapEx
            (([updateTokyo, { updateTokyo with prefecture := "北海道" }]).filter
              (fun u => (prefMapEx.lookup u.prefecture).isSome)) ∧
    (∀ (doc : RegionDoc) (u : UpdateTriple),
        (∀ s ∈ doc.spots, s.name ≠ u.spotName) → applyUpdateToDoc doc u = doc) :=
  C9_confirmImageUpdates_silent prefMapEx storeEx (fun _ => false)
    [updateTokyo, { updateTokyo with prefecture := "北海道" }] (List.cons_ne_nil _ _)

/-! ## Batch update counts (`getBatchUpdateCountsV2`, index.js 664-680)

Per prefecture: fetch its document (a failure is logged and the prefecture
skipped), evaluate the Image Update Heuristic on every spot, and record
the number of flagged spots — but only when that number is positive
(`if (count > 0) counts[pref.id] = count`).  The classifier oracle gives,
per spot, the text the endpoint would return (`none` = failed call). -/

def spotFlagged (oracle : Spot → Option String) (s : Spot) : Bool :=
  (shouldUpdateImage s (oracle s)).1

def flaggedCount (doc : RegionDoc) (oracle : Spot → Option String) : Nat :=
  (doc.spots.filter (spotFlagged oracle)).length

def getBatchUpdateCounts (prefs : List (String × Except Unit RegionDoc))
    (oracle : Spot → Option String) : List (String × Nat) :=
  prefs.filterMap (fun p =>
    match p.2 with
    | Except.error _ => none
    | Except.ok doc =>
      if 0 < flaggedCount doc oracle then some (p.1, flaggedCount doc oracle) else none)

/-! ### Claim C8

The claim says a count is returned "for each region"; the code omits every
region whose flagged count is zero (and every region whose fetch failed),
so a successfully fetched region with zero flagged spots has NO entry in
the result.  The failure-isolation part of the claim does hold. -/

def imagelessSpot : Spot := { blankSpot with name := "Imageless", area := "Shibuya" }

def flaggedDoc : RegionDoc :=
  { name := "東京都", spots := [imagelessSpot], areaPositions := [shibuyaArea],
    transitData := none }

/-- C8 counterexample: the "osaka" region's fetch succeeds and its flagged
count is 0, yet the returned list has no entry at all for "osaka" — the
code returns no count for zero-candidate regions. -/
theorem C8_counterexample :
    flaggedCount osakaDocC4 (fun _ => none) = 0 ∧
    (getBatchUpdateCounts
        [("tokyo", Except.ok flaggedDoc), ("osaka", Except.ok osakaDocC4)]
        (fun _ => none)).lookup "osaka" = none ∧
    (getBatchUpdateCounts
        [("tokyo", Except.ok flaggedDoc), ("osaka", Except.ok osakaDocC4)]
        (fun _ => none)) = [("tokyo", 1)] := ⟨by decide, by decide, by decide⟩

/-- C8 (amended): the count-candidates operation returns, for each region
whose document fetch succeeds AND whose flagged count is positive, exactly
the count of spots flagged by the Image Update Heuristic; regions with
zero flagged spots are omitted rather than reported as 0; and a region
whose fetch fails is skipped without aborting the batch or affecting the
entries of the other regions. -/
theorem C8_getBatchUpdateCounts_partial (prefs : List (String × Except Unit RegionDoc))
    (prefs₁ prefs₂ : List (String × Except Unit RegionDoc)) (bad : String)
    (oracle : Spot → Option String) :
    (∀ id n, (id, n) ∈ getBatchUpdateCounts prefs oracle →
      ∃ doc, (id, Except.ok doc) ∈ prefs ∧ n = flaggedCount doc oracle ∧ 0 < n) ∧
    (∀ id doc, (id, Except.ok doc) ∈ prefs → 0 < flaggedCount doc oracle →
      (id, flaggedCount doc oracle) ∈ getBatchUpdateCounts prefs oracle) ∧
    getBatchUpdateCounts (prefs₁ ++ (bad, Except.error ()) :: prefs₂) oracle
      = getBatchUpdateCounts (prefs₁ ++ prefs₂) oracle := by
  refine ⟨?_, ?_, ?_⟩
  · intro id n hmem
    rcases List.mem_filterMap.mp hmem with ⟨p, hp, hfp⟩
    obtain ⟨pid, pres⟩ := p
    cases pres with
    | error e => simp at hfp
    | ok doc =>
      simp only at hfp
      split at hfp
      next hpos =>
        obtain ⟨h1, h2⟩ := Prod.mk.injEq .. ▸ Option.some.injEq .. ▸ hfp
        refine ⟨doc, ?_, ?_, ?_⟩
        · rwa [← h1]
        · exact h2.symm
        · rw [← h2]; exact hpos
      next => simp at hfp
  · intro id doc hmem hpos
    exact List.mem_filterMap.mpr ⟨(id, Except.ok doc), hmem, by simp [hpos]⟩
  · simp [getBatchUpdateCounts, List.filterMap_append]

def prefsOkTokyo : List (String × Except Unit RegionDoc) := [("tokyo", Except.ok flaggedDoc)]

def prefsOkOsaka : List (String × Except Unit RegionDoc) := [("osaka", Except.ok osakaDocC4)]

/-- Concrete instantiation of `C8_getBatchUpdateCounts_partial`. -/
theorem C8_witness :
    (∀ id n, (id, n) ∈ getBatchUpdateCounts prefsOkTokyo (fun _ => none) →
      ∃ doc, (id, Except.ok doc) ∈ prefsOkTokyo ∧
        n = flaggedCount doc (fun _ => none) ∧ 0 < n) ∧
    (∀ id doc, (id, Except.ok doc) ∈ prefsOkTokyo →
      0 < flaggedCount doc (fun _ => none) →
      (id, flaggedCount doc (fun _ => none))
        ∈ getBatchUpdateCounts prefsOkTokyo (fun _ => none)) ∧
    getBatchUpdateCounts (prefsOkTokyo ++ ("broken", Except.error ()) :: prefsOkOsaka)
        (fun _ => none)
      = getBatchUpdateCounts (prefsOkTokyo ++ prefsOkOsaka) (fun _ => none) :=
  C8_getBatchUpdateCounts_partial prefsOkTokyo prefsOkTokyo prefsOkOsaka "broken"
    (fun _ => none)

/-! ## Prefecture-id map (`getPrefectureIdMap`, index.js 102-135; v1 at
821-854)

The directory fetch is modelled by
`dirFetch : Except Unit (Option (List DirEntry))` — `Except.error` for a
non-ok response, a fetch rejection or a JSON-parse failure (all of which
hit a `return default` or the outer catch), `Except.ok none` for a
response body that is not an array (the `Array.isArray` guard), and
`Except.ok (some files)` for the listing.  Each per-file fetch is
`fileFetch : String → Except Unit (Option String)` — `Except.error` when
`getGitHubFile` throws (caught per file and skipped), otherwise the
`content.name` field (`none` when absent).  The v2 fallback map has three
entries. -/

structure DirEntry where
  name : String
  deriving DecidableEq, Repr

def defaultPrefMap : PrefMap :=
  [("東京都", "tokyo"), ("大阪府", "osaka"), ("岡山県", "okayama")]

/-- JS `String.prototype.endsWith`. -/
def strEndsWith (s suffix : String) : Bool :=
  suffix.data.isSuffixOf s.data

/-- Remove the first occurrence of `pat` from `cs`
(JS `String.prototype.replace` with a string pattern and empty
replacement). -/
def removeFirstOcc (pat : List Char) : List Char → List Char
  | [] => []
  | c :: rest =>
    if pat.isPrefixOf (c :: rest) then (c :: rest).drop pat.length
    else c :: removeFirstOcc pat rest

def jsReplaceFirst (s pat : String) : String :=
  String.mk (removeFirstOcc pat.data s.data)

/-- The map-building fold of `getPrefectureIdMap`: keep ".json" files other
than `prefecture_positions.json`; for each, on a successful per-file fetch
whose content has a truthy `name`, record `name → id` where `id` is the
file name with its first ".json" removed (also required truthy); every
failure just skips the file. -/
def buildPrefMap (files : List DirEntry)
    (fileFetch : String → Except Unit (Option String)) : PrefMap :=
  (files.filter (fun f =>
      strEndsWith f.name ".json" && f.name != "prefecture_positions.json")).foldl
    (fun m f =>
      match fileFetch ("data/" ++ f.name) with
      | Except.error _ => m
      | Except.ok nameOpt =>
        match nameOpt with
        | none => m
        | some nm =>
          if nm != "" && jsReplaceFirst f.name ".json" != "" then
            setAssoc m nm (jsReplaceFirst f.name ".json")
          else m) []

def getPrefectureIdMap (dirFetch : Except Unit (Option (List DirEntry)))
    (fileFetch : String → Except Unit (Option String)) : PrefMap :=
  match dirFetch with
  | Except.error _ => defaultPrefMap
  | Except.ok files =>
    if 0 < (buildPrefMap (files.getD []) fileFetch).length then
      buildPrefMap (files.getD []) fileFetch
    else defaultPrefMap

/-! ### Claim C10 -/

/-- C10: `getPrefectureIdMap` is total and, for every outcome of the
directory fetch and of the per-file fetches, returns a non-empty map: it
falls back to the hard-coded default map when the directory fetch fails,
when the response is not an array, and whenever the built map ends up
empty — so prefecture-name resolution never raises, though it may resolve
against the hard-coded default instead of live data. -/
theorem C10_getPrefectureIdMap_total (dirFetch : Except Unit (Option (List DirEntry)))
    (fileFetch : String → Except Unit (Option String)) :
    0 < (getPrefectureIdMap dirFetch fileFetch).length ∧
    getPrefectureIdMap (Except.error ()) fileFetch = defaultPrefMap ∧
    getPrefectureIdMap (Except.ok none) fileFetch = defaultPrefMap ∧
    (∀ files : List DirEntry, buildPrefMap files fileFetch = [] →
      getPrefectureIdMap (Except.ok (some files)) fileFetch = defaultPrefMap) := by
  refine ⟨?_, rfl, ?_, ?_⟩
  · cases dirFetch with
    | error e => simp [getPrefectureIdMap, defaultPrefMap]
    | ok files =>
      simp only [getPrefectureIdMap]
      split
      next h => exact h
      next h => simp [defaultPrefMap]
  · simp [getPrefectureIdMap, buildPrefMap, defaultPrefMap]
  · intro files hb
    simp [getPrefectureIdMap, hb]

/-- Concrete instantiation of `C10_getPrefectureIdMap_total`: a directory
with one valid region file. -/
theorem C10_witness :
    0 < (getPrefectureIdMap (Except.ok (some [⟨"tokyo.json"⟩]))
        (fun _ => Except.ok (some "東京都"))).length ∧
    getPrefectureIdMap (Except.error ()) (fun _ => Except.ok (some "東京都")) = defaultPrefMap ∧
    getPrefectureIdMap (Except.ok none) (fun _ => Except.ok (some "東京都")) = defaultPrefMap ∧
    (∀ files : List DirEntry,
      buildPrefMap files (fun _ => Except.ok (some "東京都")) = [] →
      getPrefectureIdMap (Except.ok (some files)) (fun _ => Except.ok (some "東京都"))
        = defaultPrefMap) :=
  C10_getPrefectureIdMap_total (Except.ok (some [⟨"tokyo.json"⟩]))
    (fun _ => Except.ok (some "東京都"))

end TripPlanner

